import Mathlib

set_option maxRecDepth 100000

/-!
Shallow embedding of `src/core/file_sys/ncch_container.cpp` (Citra's NCCH
container reader): byte-level parsing of the NCCH/NCSD/ExHeader/ExeFS headers
and the backwards LZSS decoder. Machine integers (u8/u32/u64) are `Nat` with
explicit `% 2^w` where the source can wrap. Byte buffers and backing files
are modelled as little-endian base-256 numbers (`bytes : Nat`) together with
their length in bytes, so a read of the u32 at offset `o` is literally
`(bytes >>> (8*o)) % 2^32`, matching the source's little-endian `*(u32*)`
casts. Every raw access the source leaves unguarded is modelled with an
explicit bounds test whose failure is a distinguished out-of-bounds marker
(in the C source such an access is undefined behaviour).
-/

namespace NcchSpec

/-- The byte at offset `i` of buffer `b`. -/
def byteAt (b i : Nat) : Nat := (b >>> (8 * i)) % 256

/-- Little-endian u32 at byte offset `o` of buffer `b`. -/
def le32At (b o : Nat) : Nat := (b >>> (8 * o)) % 4294967296

/-- Little-endian u64 at byte offset `o` of buffer `b`. -/
def le64At (b o : Nat) : Nat := (b >>> (8 * o)) % 18446744073709551616

/-- Write byte `v` at offset `i` of buffer `b`. -/
def setByte (b i v : Nat) : Nat :=
  b % (1 <<< (8 * i)) + (v <<< (8 * i)) + ((b >>> (8 * (i + 1))) <<< (8 * (i + 1)))

/-- A backing file (or an allocated buffer): its byte length and its
contents as a little-endian base-256 number. -/
structure ByteFile where
  size : Nat
  bytes : Nat
deriving DecidableEq

/-- `fread` semantics of `ReadBytes`: reading `len` bytes at position `pos`
yields the available bytes (first component) and their count (second
component); a read past the end is short. -/
def readAt (f : ByteFile) (pos len : Nat) : Nat × Nat :=
  let r := min len (f.size - pos)
  ((f.bytes >>> (8 * pos)) % (1 <<< (8 * r)), r)

/-- Copy the `r` low bytes of `src` over the beginning of `dst`, keeping the
rest of `dst` (the effect of a possibly short `ReadBytes` into a struct). -/
def overwrite (dst src r : Nat) : Nat :=
  src % (1 <<< (8 * r)) + ((dst >>> (8 * r)) <<< (8 * r))

/-- The C string starting at offset `o` of a buffer, traversed with at most
`fuel` remaining bytes: bytes up to the first NUL, as `strcmp` reads them. -/
def cstrFrom (b o : Nat) : Nat → List Nat
  | 0 => []
  | fuel + 1 =>
    if byteAt b o = 0 then [] else byteAt b o :: cstrFrom b (o + 1) fuel

/-- The C string at offset `o` of a buffer of length `L`. -/
def cstrAt (b L o : Nat) : List Nat := cstrFrom b o (L - o)

/-! ## LZSS decoder (`LZSS_GetDecompressedSize`, `LZSS_Decompress`) -/

/-- `LZSS_GetDecompressedSize`: reads the little-endian u32 at
`buffer + size - 4` and returns it plus `size` (u32 addition, so mod 2^32).
`blen` is the length of the allocation behind `buffer`; `none` models the
out-of-bounds read the source performs when the four bytes at `size - 4` are
not inside it. -/
def lzssGetDecompressedSize (buffer blen size : Nat) : Option Nat :=
  if 4 ≤ size ∧ size ≤ blen then
    some ((le32At buffer (size - 4) + size) % 4294967296)
  else none

/-- Result of the back-reference copy loop inside `LZSS_Decompress`. -/
inductive CopyRes
  | cont (out : Nat) (dec : Nat)
  | fail
  | oob
deriving DecidableEq

/-- The inner `for (j < segment_size)` copy loop of `LZSS_Decompress`: each
iteration checks `out + segment_offset >= decompressed_size` (u32 sum),
failing with `return false` on violation, then copies the byte at
`decompressed[out + segment_offset]` to `decompressed[--out]`. The output
buffer holds `D` bytes; a write outside it is `oob`. -/
def lzssCopy (D : Nat) : Nat → Nat → Nat → Nat → CopyRes
  | 0, _, out, dec => .cont out dec
  | j + 1, segOff, out, dec =>
    if D ≤ (out + segOff) % 4294967296 then .fail
    else if out = 0 then .oob
    else if D < out then .oob
    else
      lzssCopy D j segOff (out - 1)
        (setByte dec (out - 1) (byteAt dec ((out + segOff) % 4294967296)))

/-- Result of the eight-step control-bit loop of `LZSS_Decompress`. -/
inductive StepRes
  | cont (index out : Nat) (dec : Nat)
  | fail
  | oob
deriving DecidableEq

/-- The inner `for (i < 8)` loop of `LZSS_Decompress`: consumes the control
byte MSB-first; a set bit decodes a two-byte back-reference segment, a clear
bit copies one literal from the input; both walk `index` and `out`
downwards. The source's `index <= 0` / `out <= 0` tests on unsigned values
are the `= 0` tests here, and `control <<= 1` on a u8 is `* 2 % 256`. -/
def lzssInner (compressed cs D stop : Nat) :
    Nat → Nat → Nat → Nat → Nat → StepRes
  | 0, _, index, out, dec => .cont index out dec
  | i + 1, control, index, out, dec =>
    if index ≤ stop then .cont index out dec
    else if index = 0 then .cont index out dec
    else if out = 0 then .cont index out dec
    else if control &&& 128 ≠ 0 then
      if index < 2 then .fail
      else
        let idx2 := index - 2
        if idx2 + 1 < cs then
          let seg := byteAt compressed idx2 + 256 * byteAt compressed (idx2 + 1)
          let segSize := ((seg >>> 12) &&& 15) + 3
          let segOff := (seg &&& 4095) + 2
          if out < segSize then .fail
          else
            match lzssCopy D segSize segOff out dec with
            | .cont out2 dec2 =>
              lzssInner compressed cs D stop i ((control * 2) % 256) idx2 out2 dec2
            | .fail => .fail
            | .oob => .oob
        else .oob
    else
      if out < 1 then .fail
      else if index ≤ cs ∧ out ≤ D then
        lzssInner compressed cs D stop i ((control * 2) % 256) (index - 1)
          (out - 1) (setByte dec (out - 1) (byteAt compressed (index - 1)))
      else .oob

/-- Result of running the decoder. `ok` carries the output buffer and the
final `out` index; `fail` is the source's `return false`; `oob` marks an
access outside a buffer (undefined behaviour in the source); `nofuel` is the
fuel-exhaustion marker of the embedding (proved unreachable). -/
inductive LzRes
  | ok (dec : Nat) (out : Nat)
  | fail
  | oob
  | nofuel
deriving DecidableEq

/-- The outer `while (index > stop_index)` loop of `LZSS_Decompress`: reads
a control byte at `--index` and runs the eight-step inner loop. -/
def lzssOuter (compressed cs D stop : Nat) : Nat → Nat → Nat → Nat → LzRes
  | 0, index, out, dec => if stop < index then .nofuel else .ok dec out
  | fuel + 1, index, out, dec =>
    if stop < index then
      if index ≤ cs then
        match lzssInner compressed cs D stop 8 (byteAt compressed (index - 1))
            (index - 1) out dec with
        | .cont index2 out2 dec2 =>
          lzssOuter compressed cs D stop fuel index2 out2 dec2
        | .fail => .fail
        | .oob => .oob
      else .oob
    else .ok dec out

/-- `LZSS_Decompress` on a compressed buffer of `cs` declared bytes and an
output buffer of `D` declared bytes: reads the 8-byte footer at the end of
the input (an out-of-bounds access when `cs < 8`), derives the initial and
stop indices by u32 subtraction, zero-fills the output and copies the whole
input over its beginning (`memset` + `memcpy`; an out-of-bounds write when
`D < cs`), then runs the main loop. The fuel equals the initial index, which
bounds the number of outer iterations since every iteration decrements it. -/
def lzssDecompress (compressed cs D : Nat) : LzRes :=
  if cs < 8 then .oob
  else
    let btb := le32At compressed (cs - 8)
    let index := (cs + 4294967296 - ((btb >>> 24) &&& 255)) % 4294967296
    let stop := (cs + 4294967296 - (btb &&& 16777215)) % 4294967296
    if D < cs then .oob
    else lzssOuter compressed cs D stop index index D (compressed % (1 <<< (8 * cs)))

/-! ## Container state and operations (`NCCHContainer`) -/

/-- Status codes of `Loader::ResultStatus` used by the container. -/
inductive Status
  | Success
  | Error
  | ErrorInvalidFormat
  | ErrorEncrypted
  | ErrorNotUsed
  | ErrorMemoryAllocationFailed
deriving DecidableEq

/-- Mutable state of an `NCCHContainer`: the backing file (`none` when the
open failed), the file position, the `is_loaded` flag, the active NCCH base
offset, the three raw header buffers, the compression flag and the cached
ExeFS byte offset. -/
structure NCCH where
  file : Option ByteFile
  pos : Nat
  is_loaded : Bool
  ncch_offset : Nat
  ncch_header : Nat
  exheader_header : Nat
  exefs_header : Nat
  is_compressed : Bool
  exefs_offset : Nat
deriving DecidableEq

/-- Modelled from the spec: the constructor's initial member state comes from
the class declaration in `ncch_container.h`, which is not among the given
sources. Following the spec's reader lifecycle (`is_loaded` starts false, the
NCCH base offset defaults to 0, header buffers hold unparsed default state),
the initial state is unloaded with zero-filled header buffers; the
constructor merely opens the backing file. -/
def mkContainer (file : Option ByteFile) : NCCH :=
  { file := file
    pos := 0
    is_loaded := false
    ncch_offset := 0
    ncch_header := 0
    exheader_header := 0
    exefs_header := 0
    is_compressed := false
    exefs_offset := 0 }

/-- `NCCHContainer::OpenFile`: rebind the backing file. Only `filepath` and
`file` are assigned; no other member is touched. -/
def openFile (c : NCCH) (f : Option ByteFile) : NCCH :=
  { c with file := f, pos := 0 }

/-- `MakeMagic('N','C','S','D')`. -/
def magicNCSD : Nat := 0x4453434E

/-- `MakeMagic('N','C','C','H')`. -/
def magicNCCH : Nat := 0x4843434E

/-- `~updateMask` over 64 bits, with `updateMask = 0x0000000e00000000`. -/
def notUpdateMask : Nat := 0xFFFFFFF1FFFFFFFF

/-- `NCCHContainer::Load`: memoised parse of the NCCH header (with NCSD
detection and a re-read at base 0x4000), the ExHeader (including the
encryption test, embedded exactly as the source writes it:
`pid & (~updateMask != ncch_pid)`, the `!=` binding tighter than the `&`),
and the ExeFS header. Header field byte offsets follow the fixed
little-endian layouts: magic at 0x100, NCCH program_id at 0x118,
exefs_offset at 0x1A0, ExHeader flags at 0x00D and ARM11 program_id at
0x200 of the ExHeader (0x400 of the file after the 0x200 NCCH header). -/
def load (c : NCCH) : Status × NCCH :=
  if c.is_loaded then (Status.Success, c)
  else
    match c.file with
    | none => (Status.Error, c)
    | some f =>
      let r1 := readAt f 0 512
      let c1 : NCCH :=
        { c with pos := r1.2, ncch_header := overwrite c.ncch_header r1.1 r1.2 }
      if r1.2 ≠ 512 then (Status.Error, c1)
      else
        let c2 : NCCH :=
          if le32At c1.ncch_header 256 = magicNCSD then
            let r2 := readAt f 16384 512
            { c1 with
              ncch_offset := 16384
              pos := 16384 + r2.2
              ncch_header := overwrite c1.ncch_header r2.1 r2.2 }
          else c1
        if le32At c2.ncch_header 256 ≠ magicNCCH then (Status.ErrorInvalidFormat, c2)
        else
          let r3 := readAt f c2.pos 2048
          let c3 : NCCH :=
            { c2 with
              pos := c2.pos + r3.2
              exheader_header := overwrite c2.exheader_header r3.1 r3.2 }
          if r3.2 ≠ 2048 then (Status.Error, c3)
          else
            let c4 : NCCH :=
              { c3 with is_compressed := byteAt c3.exheader_header 13 &&& 1 == 1 }
            let exhPid := le64At c4.exheader_header 512
            let ncchPid := le64At c4.ncch_header 280
            if exhPid &&& (if notUpdateMask ≠ ncchPid then 1 else 0) ≠ 0 then
              (Status.ErrorEncrypted, c4)
            else
              let c5 : NCCH :=
                { c4 with exefs_offset := le32At c4.ncch_header 416 * 512 % 4294967296 }
              let pos2 := (c5.exefs_offset + c5.ncch_offset) % 4294967296
              let r4 := readAt f pos2 512
              let c6 : NCCH :=
                { c5 with
                  pos := pos2 + r4.2
                  exefs_header := overwrite c5.exefs_header r4.1 r4.2 }
              if r4.2 ≠ 512 then (Status.Error, c6)
              else (Status.Success, { c6 with is_loaded := true })

/-! ## ExeFS section lookup and load (`LoadSectionExeFS`) -/

/-- Does ExeFS slot `i` match the requested name? The source compares with
`strcmp(section.name, name)`, i.e. the NUL-terminated byte string starting
at the slot's name field inside the 0x200-byte ExeFS header; the requested
name is a NUL-free byte list. -/
def matchesSlot (hdr i : Nat) (name : List Nat) : Bool :=
  cstrAt hdr 512 (16 * i) == name

/-- Linear scan of the section slots from index `i` upwards with `rem`
slots left to inspect (`kMaxSections` is 8): the first matching slot wins. -/
def findFrom (hdr : Nat) (name : List Nat) : Nat → Nat → Option Nat
  | 0, _ => none
  | rem + 1, i =>
    if matchesSlot hdr i name then some i else findFrom hdr name rem (i + 1)

/-- First matching ExeFS slot, scanning indices 0..7 in order. -/
def findSection (hdr : Nat) (name : List Nat) : Option Nat :=
  findFrom hdr name 8 0

/-- u32 `offset` field of slot `i` (8 bytes of name precede it). -/
def slotOffset (hdr i : Nat) : Nat := le32At hdr (16 * i + 8)

/-- u32 `size` field of slot `i`. -/
def slotSize (hdr i : Nat) : Nat := le32At hdr (16 * i + 12)

/-- Absolute file offset of section `i`'s data:
`(section.offset + exefs_offset)` in u32, then `+ sizeof(ExeFs_Header)`
(0x200, a `size_t`) and `+ ncch_offset` in 64-bit arithmetic. -/
def sectionAbsOffset (c : NCCH) (i : Nat) : Nat :=
  (slotOffset c.exefs_header i + c.exefs_offset) % 4294967296 + 512 + c.ncch_offset

/-- The bytes of `".code"`. -/
def dotCode : List Nat := [46, 99, 111, 100, 101]

/-- Section scan and read phase of `LoadSectionExeFS`, after a successful
`Load`: find the first slot matching `name`; read its bytes; when the slot
is named `".code"` and the ExHeader flagged compression, pipe them through
the LZSS decoder (`false` from the decoder surfaces `ErrorInvalidFormat`).
The returned `ByteFile` is the output buffer; `none` models undefined
behaviour (an out-of-bounds access) inside the decoder. -/
def loadSectionAfter (c : NCCH) (name : List Nat) :
    Option (Status × ByteFile × NCCH) :=
  match c.file with
  | none => some (Status.Error, ⟨0, 0⟩, c)
  | some f =>
    match findSection c.exefs_header name with
    | none => some (Status.ErrorNotUsed, ⟨0, 0⟩, c)
    | some i =>
      let off := sectionAbsOffset c i
      let sz := slotSize c.exefs_header i
      if cstrAt c.exefs_header 512 (16 * i) == dotCode && c.is_compressed then
        let temp := readAt f off sz
        if temp.2 = sz then
          match lzssGetDecompressedSize temp.1 sz sz with
          | some dsize =>
            match lzssDecompress temp.1 sz dsize with
            | LzRes.ok dec _ =>
              some (Status.Success, ⟨dsize, dec⟩, { c with pos := off + sz })
            | LzRes.fail =>
              some (Status.ErrorInvalidFormat, ⟨0, 0⟩, { c with pos := off + sz })
            | LzRes.oob => none
            | LzRes.nofuel => none
          | none => none
        else some (Status.Error, ⟨0, 0⟩, { c with pos := off + temp.2 })
      else
        let buf := readAt f off sz
        if buf.2 = sz then
          some (Status.Success, ⟨sz, buf.1⟩, { c with pos := off + sz })
        else some (Status.Error, ⟨0, 0⟩, { c with pos := off + buf.2 })

/-- `NCCHContainer::LoadSectionExeFS`: fail with `Error` when the file is
not open, run the (lazy, memoised) `Load`, propagate its failures, then scan
and read the requested section. -/
def loadSectionExeFS (c : NCCH) (name : List Nat) :
    Option (Status × ByteFile × NCCH) :=
  if c.file = none then some (Status.Error, ⟨0, 0⟩, c)
  else
    match load c with
    | (Status.Success, c2) => loadSectionAfter c2 name
    | (st, c2) => some (st, ⟨0, 0⟩, c2)

/-! ## RomFS locator (`ReadRomFS`) -/

/-- The u32 RomFS byte offset the source computes:
`ncch_offset + romfs_offset_blocks * 0x200 + 0x1000` in 32-bit arithmetic
(the romfs_offset field sits at 0x1B0 of the NCCH header). -/
def romfsOff (c : NCCH) : Nat :=
  (c.ncch_offset + le32At c.ncch_header 432 * 512 + 4096) % 4294967296

/-- The u32 RomFS byte size the source computes:
`romfs_size_blocks * 0x200 - 0x1000` in 32-bit arithmetic
(the romfs_size field sits at 0x1B4 of the NCCH header). -/
def romfsSz (c : NCCH) : Nat :=
  (le32At c.ncch_header 436 * 512 + 4294967296 - 4096) % 4294967296

/-- `NCCHContainer::ReadRomFS`: requires an open file, returns
`ErrorNotUsed` when either RomFS header field is zero, otherwise computes
the u32 offset and size, validates them against the file length (their sum
again taken in u32), and on success hands back the pair (the independently
re-opened cursor is modelled by the success itself). The function performs
no implicit `Load` and never mutates the container. -/
def readRomFS (c : NCCH) : Status × Option (Nat × Nat) :=
  match c.file with
  | none => (Status.Error, none)
  | some f =>
    if le32At c.ncch_header 432 ≠ 0 ∧ le32At c.ncch_header 436 ≠ 0 then
      if f.size < (romfsOff c + romfsSz c) % 4294967296 then (Status.Error, none)
      else (Status.Success, some (romfsOff c, romfsSz c))
    else (Status.ErrorNotUsed, none)

/-! ## Concrete image files used by the counterexamples and witnesses -/

/-- A minimal loadable bare-NCCH image: 0xA00 zero bytes except the `NCCH`
magic at 0x100. All program ids are 0, the ExeFS offset field is 0 (so the
ExeFS header read re-reads the file start) and `Load` succeeds. -/
def fileMinimal : ByteFile := ⟨2560, 0x4843434E <<< 2048⟩

/-- The spec's program-id-mismatch scenario: NCCH program_id
`0x0004000000123400` (at byte 0x118), ExHeader ARM11 program_id
`0x0004020000123400` (at byte 0x400 of the file), differing outside the
update mask; otherwise like `fileMinimal`. -/
def fileMismatchPid : ByteFile :=
  ⟨2560, 0x4843434E <<< 2048 + 0x0004000000123400 <<< 2240 +
    0x0004020000123400 <<< 8192⟩

/-- A loadable image with a RomFS: romfs_offset field (0x1B0) = 1 block,
romfs_size field (0x1B4) = 9 blocks, file length 0x1400 so the RomFS range
`[0x1200, 0x1200 + 0x200)` fits exactly. -/
def fileRomfs : ByteFile :=
  ⟨5120, 0x4843434E <<< 2048 + 1 <<< 3456 + 9 <<< 3488⟩

/-- A loadable image whose romfs_offset field is 0x800008 blocks, so the u32
product `0x800008 * 0x200` wraps to 0x1000; romfs_size is 9 blocks; file
length 0x2200, so the wrapped range passes the validation although the
unwrapped range lies far outside the file. -/
def fileRomfsWrap : ByteFile :=
  ⟨8704, 0x4843434E <<< 2048 + 0x800008 <<< 3456 + 9 <<< 3488⟩

/-- A loadable image with a compressed `.code` section: the ExHeader flags
byte (file offset 0x20D) has the compression bit, the ExeFS sits at block 5
(0xA00), slot 0 is named `".code"` with offset 0 and size 8, and the 8
section bytes `[6, 0, 0, 3, 0x88, 0, 0, 0]` form an LZSS footer whose first
control byte (0x88) decodes a back-reference that trips the
`out + segment_offset >= decompressed_size` guard. -/
def fileCompressed : ByteFile :=
  ⟨3080, 0x4843434E <<< 2048 + 5 <<< 3328 + 1 <<< 4200 +
    0x65646F632E <<< 20480 + 8 <<< 20576 + 0x8803000006 <<< 24576⟩

/-- A loadable image whose ExeFS sits at block 5 and whose section directory
is all zero (every slot empty). -/
def fileEmptySlots : ByteFile :=
  ⟨3072, 0x4843434E <<< 2048 + 5 <<< 3328⟩

/-- An ExeFS directory whose slots 1 and 2 both carry the name `"a"`. -/
def hdrDup : Nat := 0x61 <<< 128 + 0x61 <<< 256

/-- Like `fileMinimal` but with NCCH program_id 1 and ExHeader ARM11
program_id 1: the two ids agree exactly (so also after masking), and the
ExHeader id is odd. -/
def fileOddPid : ByteFile :=
  ⟨2560, 0x4843434E <<< 2048 + 1 <<< 2240 + 1 <<< 8192⟩

/-! ## Supporting lemmas -/

/-- A slot index returned by the scan matches, lies in the scanned window,
and no earlier slot of the window matches. -/
theorem findFrom_some (hdr : Nat) (name : List Nat) :
    ∀ rem i k, findFrom hdr name rem i = some k →
      i ≤ k ∧ k < i + rem ∧ matchesSlot hdr k name = true ∧
        ∀ j, i ≤ j → j < k → matchesSlot hdr j name = false := by
  intro rem
  induction rem with
  | zero => intro i k h; simp [findFrom] at h
  | succ rem ih =>
    intro i k h
    rw [findFrom] at h
    by_cases hm : matchesSlot hdr i name
    · rw [if_pos hm] at h
      obtain rfl : i = k := by injection h
      exact ⟨le_refl i, by omega, hm, fun j h1 h2 => by omega⟩
    · rw [if_neg hm] at h
      obtain ⟨h1, h2, h3, h4⟩ := ih (i + 1) k h
      refine ⟨by omega, by omega, h3, fun j hj1 hj2 => ?_⟩
      rcases Nat.eq_or_lt_of_le hj1 with rfl | hlt
      · exact Bool.eq_false_iff.mpr hm
      · exact h4 j hlt hj2

/-- A `none` result of the scan means no slot of the window matches. -/
theorem findFrom_none (hdr : Nat) (name : List Nat) :
    ∀ rem i, findFrom hdr name rem i = none →
      ∀ j, i ≤ j → j < i + rem → matchesSlot hdr j name = false := by
  intro rem
  induction rem with
  | zero => intro i _ j h1 h2; omega
  | succ rem ih =>
    intro i h j h1 h2
    rw [findFrom] at h
    by_cases hm : matchesSlot hdr i name
    · rw [if_pos hm] at h; exact absurd h (by simp)
    · rw [if_neg hm] at h
      rcases Nat.eq_or_lt_of_le h1 with rfl | hlt
      · exact Bool.eq_false_iff.mpr hm
      · exact ih (i + 1) h j hlt (by omega)

/-- If the eight-step inner loop finishes a round normally, the input index
never increased: every branch either keeps it or moves it down (by 2 for a
back-reference, by 1 for a literal). -/
theorem lzssInner_cont_le (compressed cs D stop : Nat) :
    ∀ i control index out dec index2 out2 dec2,
      lzssInner compressed cs D stop i control index out dec =
        StepRes.cont index2 out2 dec2 → index2 ≤ index := by
  intro i
  induction i with
  | zero =>
    intro control index out dec index2 out2 dec2 h
    rw [lzssInner] at h
    injection h with h1 h2 h3
    omega
  | succ i ih =>
    intro control index out dec index2 out2 dec2 h
    rw [lzssInner] at h
    dsimp only at h
    split at h
    · injection h with h1 h2 h3; omega
    · split at h
      · injection h with h1 h2 h3; omega
      · split at h
        · injection h with h1 h2 h3; omega
        · split at h
          · split at h
            · exact StepRes.noConfusion h
            · split at h
              · split at h
                · exact StepRes.noConfusion h
                · split at h
                  · have := ih _ _ _ _ _ _ _ h
                    omega
                  · exact StepRes.noConfusion h
                  · exact StepRes.noConfusion h
              · exact StepRes.noConfusion h
          · split at h
            · exact StepRes.noConfusion h
            · split at h
              · have := ih _ _ _ _ _ _ _ h
                omega
              · exact StepRes.noConfusion h

/-- With fuel at least the current input index, the outer loop never runs
out of fuel: each iteration strictly decreases the index (the control-byte
read alone decrements it) and the inner loop never increases it. -/
theorem lzssOuter_no_nofuel (compressed cs D stop : Nat) :
    ∀ fuel index out dec, index ≤ fuel →
      lzssOuter compressed cs D stop fuel index out dec ≠ LzRes.nofuel := by
  intro fuel
  induction fuel with
  | zero =>
    intro index out dec hle
    rw [lzssOuter]
    have hns : ¬ stop < index := by omega
    simp [hns]
  | succ fuel ih =>
    intro index out dec hle
    rw [lzssOuter]
    split
    · split
      · split
        · rename_i hstop hcs index2 out2 dec2 hinner
          have h2 := lzssInner_cont_le compressed cs D stop 8 _ _ _ _ _ _ _ hinner
          exact ih index2 out2 dec2 (by omega)
        · simp
        · simp
      · simp
    · simp

/-! ## Claim theorems -/

/-- Claim C1 (code bug evidence): the source's encryption test parses as
`exheader_pid & (~updateMask != ncch_pid)` because `!=` binds tighter than
`&`. At `fileMismatchPid` the masked ExHeader program_id differs from the
NCCH program_id (the spec's own mismatch scenario, which must yield
`Encrypted`), yet `Load` succeeds because the ExHeader id is even; at
`fileOddPid` the two ids agree exactly, yet `Load` reports `Encrypted`
because the ExHeader id is odd. -/
theorem c1_encryption_check_slip :
    ((load (mkContainer (some fileMismatchPid))).1 = Status.Success ∧
      le64At (load (mkContainer (some fileMismatchPid))).2.exheader_header 512 &&&
          notUpdateMask ≠
        le64At (load (mkContainer (some fileMismatchPid))).2.ncch_header 280) ∧
    ((load (mkContainer (some fileOddPid))).1 = Status.ErrorEncrypted ∧
      le64At (load (mkContainer (some fileOddPid))).2.exheader_header 512 &&&
          notUpdateMask =
        le64At (load (mkContainer (some fileOddPid))).2.ncch_header 280) := by
  decide

/-- Claim C2 (counterexample): after a successful `Load`, rebinding the
container to a different (here: empty) file and calling `Load` again returns
`Success` without re-parsing — even though a fresh parse of the new file
fails with `Error` — because `OpenFile` does not clear `is_loaded`. -/
theorem c2_counterexample :
    (load (openFile (load (mkContainer (some fileMinimal))).2 (some ⟨0, 0⟩))).1 =
        Status.Success ∧
    (load (mkContainer (some ⟨0, 0⟩))).1 = Status.Error := by
  decide

/-- Claim C2 (amended): `OpenFile` rebinds only the backing file and does not
discard prior parsed state; on an already-loaded container a subsequent
`Load` returns `Success` immediately with the previous file's parsed headers
and never touches the newly bound file. -/
theorem c2_open_keeps_stale_state (c : NCCH) (f : Option ByteFile)
    (h : c.is_loaded = true) :
    load (openFile c f) = (Status.Success, openFile c f) ∧
    (openFile c f).ncch_header = c.ncch_header ∧
    (openFile c f).exheader_header = c.exheader_header ∧
    (openFile c f).exefs_header = c.exefs_header ∧
    (openFile c f).is_loaded = true := by
  refine ⟨?_, rfl, rfl, rfl, h⟩
  unfold load openFile
  simp [h]

/-- Claim C2 (witness): the amended statement at the loaded `fileMinimal`
container, rebound to the empty file. -/
theorem c2_witness :
    load (openFile (load (mkContainer (some fileMinimal))).2 (some ⟨0, 0⟩)) =
      (Status.Success,
        openFile (load (mkContainer (some fileMinimal))).2 (some ⟨0, 0⟩)) ∧
    (openFile (load (mkContainer (some fileMinimal))).2 (some ⟨0, 0⟩)).ncch_header =
      (load (mkContainer (some fileMinimal))).2.ncch_header ∧
    (openFile (load (mkContainer (some fileMinimal))).2 (some ⟨0, 0⟩)).exheader_header =
      (load (mkContainer (some fileMinimal))).2.exheader_header ∧
    (openFile (load (mkContainer (some fileMinimal))).2 (some ⟨0, 0⟩)).exefs_header =
      (load (mkContainer (some fileMinimal))).2.exefs_header ∧
    (openFile (load (mkContainer (some fileMinimal))).2 (some ⟨0, 0⟩)).is_loaded = true :=
  c2_open_keeps_stale_state (load (mkContainer (some fileMinimal))).2 (some ⟨0, 0⟩)
    (by decide)

/-- Claim C3 (counterexample): on a freshly constructed (never loaded)
container over `fileRomfs`, `ReadRomFS` returns `ErrorNotUsed` from the
unparsed zero header, although `Load` succeeds on that file and running
`Load` first makes `ReadRomFS` return the file's actual RomFS range — so
`ReadRomFS` does not behave as if `Load` had been run first. -/
theorem c3_counterexample :
    readRomFS (mkContainer (some fileRomfs)) = (Status.ErrorNotUsed, none) ∧
    (load (mkContainer (some fileRomfs))).1 = Status.Success ∧
    readRomFS (load (mkContainer (some fileRomfs))).2 =
      (Status.Success, some (4608, 512)) := by
  decide

/-- Claim C3 (amended): `ReadRomFS` performs no implicit `Load`; it reads
whatever header state the container currently holds, so on a freshly
constructed open container it returns `ErrorNotUsed` regardless of the
backing file's contents. -/
theorem c3_no_implicit_load (f : ByteFile) :
    readRomFS (mkContainer (some f)) = (Status.ErrorNotUsed, none) := by
  simp [readRomFS, mkContainer, le32At]

/-- Claim C3 (witness): the amended statement at `fileMinimal`. -/
theorem c3_witness :
    readRomFS (mkContainer (some fileMinimal)) = (Status.ErrorNotUsed, none) :=
  c3_no_implicit_load fileMinimal

/-- Claim C4 (code bug evidence): `LZSS_GetDecompressedSize` reads four
bytes at `buffer + size - 4` with no size guard (out of bounds for any
`size < 4`), and `LZSS_Decompress` reads an 8-byte footer and copies the
whole input into the output with no size guards (out of bounds for
`compressed_size < 8`, and an out-of-bounds write whenever the declared
output is smaller than the declared input). -/
theorem c4_unguarded_accesses :
    lzssGetDecompressedSize 0 0 0 = none ∧
    lzssDecompress 0 0 16 = LzRes.oob ∧
    lzssDecompress 0 16 8 = LzRes.oob := by
  decide

/-- Claim C5 (counterexample): for the 4-byte buffer `FF FF FF FF`, the
computed size is `(0xFFFFFFFF + 4) % 2^32 = 3`, which is smaller than the
compressed length 4 — the u32 addition wraps, so the decompressed size is
not `read_u32_le + len` as integers and not at least `len`. -/
theorem c5_counterexample :
    lzssGetDecompressedSize 0xFFFFFFFF 4 4 = some 3 ∧ 3 < 4 := by
  decide

/-- Claim C5 (amended): for every buffer of declared length at least 4, the
computed size equals `(read_u32_le(last 4 bytes) + len) mod 2^32`, and it is
at least `len` exactly when that 32-bit addition does not wrap. -/
theorem c5_size_mod32 (buffer blen size : Nat) (h4 : 4 ≤ size)
    (hb : size ≤ blen) :
    lzssGetDecompressedSize buffer blen size =
      some ((le32At buffer (size - 4) + size) % 4294967296) ∧
    (le32At buffer (size - 4) + size < 4294967296 →
      size ≤ (le32At buffer (size - 4) + size) % 4294967296) := by
  constructor
  · simp [lzssGetDecompressedSize, h4, hb]
  · intro h
    rw [Nat.mod_eq_of_lt h]
    omega

/-- Claim C5 (witness): the amended statement at the buffer `01 02 03 04`. -/
theorem c5_witness :
    lzssGetDecompressedSize 0x04030201 4 4 =
      some ((le32At 0x04030201 0 + 4) % 4294967296) ∧
    (le32At 0x04030201 0 + 4 < 4294967296 →
      4 ≤ (le32At 0x04030201 0 + 4) % 4294967296) :=
  c5_size_mod32 0x04030201 4 4 (by decide) (by decide)

/-- Claim C6 (confirmed): the back-reference copy loop checks
`out + segment_offset >= decompressed_size` (as the u32 the source computes)
before every byte resolution and returns `false` on violation without
performing the read; and whenever the decoder returns `false` on the
compressed `.code` path, `LoadSectionExeFS` surfaces `ErrorInvalidFormat`. -/
theorem c6_backref_guard :
    (∀ D j segOff out dec, D ≤ (out + segOff) % 4294967296 →
      lzssCopy D (j + 1) segOff out dec = CopyRes.fail) ∧
    (∀ c name f i d, c.file ≠ none → (load c).1 = Status.Success →
      (load c).2.file = some f →
      findSection (load c).2.exefs_header name = some i →
      (cstrAt (load c).2.exefs_header 512 (16 * i) == dotCode &&
        (load c).2.is_compressed) = true →
      (readAt f (sectionAbsOffset (load c).2 i)
          (slotSize (load c).2.exefs_header i)).2 =
        slotSize (load c).2.exefs_header i →
      lzssGetDecompressedSize
        (readAt f (sectionAbsOffset (load c).2 i)
          (slotSize (load c).2.exefs_header i)).1
        (slotSize (load c).2.exefs_header i)
        (slotSize (load c).2.exefs_header i) = some d →
      lzssDecompress
        (readAt f (sectionAbsOffset (load c).2 i)
          (slotSize (load c).2.exefs_header i)).1
        (slotSize (load c).2.exefs_header i) d = LzRes.fail →
      loadSectionExeFS c name = some (Status.ErrorInvalidFormat, ⟨0, 0⟩,
        { (load c).2 with
          pos := sectionAbsOffset (load c).2 i +
            slotSize (load c).2.exefs_header i })) := by
  constructor
  · intro D j segOff out dec h
    rw [lzssCopy]
    rw [if_pos h]
  · intro c name f i d h0 h1 h2 h3 h4 h5 h6 h7
    unfold loadSectionExeFS
    rw [if_neg h0]
    have hlc : load c = (Status.Success, (load c).2) := Prod.ext_iff.mpr ⟨h1, rfl⟩
    rw [hlc]
    show loadSectionAfter (load c).2 name = _
    unfold loadSectionAfter
    rw [h2]
    dsimp only
    rw [h3]
    dsimp only
    rw [h4, if_pos rfl, h5, if_pos rfl, h6]
    dsimp only
    rw [h7]
    dsimp only
    rw [← h2]

/-- Claim C6 (witness): the guard fires at `out = 144`, `segment_offset =
770`, `decompressed_size = 144`, and on `fileCompressed` (whose `.code`
section's back-reference resolves out of range) `LoadSectionExeFS` returns
`ErrorInvalidFormat`. -/
theorem c6_witness :
    lzssCopy 144 3 770 144 0x8803000006 = CopyRes.fail ∧
    loadSectionExeFS (mkContainer (some fileCompressed)) dotCode =
      some (Status.ErrorInvalidFormat, ⟨0, 0⟩,
        { (load (mkContainer (some fileCompressed))).2 with
          pos := sectionAbsOffset (load (mkContainer (some fileCompressed))).2 0 +
            slotSize (load (mkContainer (some fileCompressed))).2.exefs_header 0 }) :=
  ⟨c6_backref_guard.1 144 2 770 144 0x8803000006 (by decide),
   c6_backref_guard.2 (mkContainer (some fileCompressed)) dotCode fileCompressed 0 144
     (by decide) (by decide) (by decide) (by decide) (by decide) (by decide)
     (by decide) (by decide)⟩

/-- Claim C7 (counterexample): on `fileEmptySlots`, whose ExeFS slot 0 has
an all-zero name field, looking up the empty name selects that empty slot
(`strcmp("", "") == 0`) and `LoadSectionExeFS` succeeds on it instead of
skipping every empty slot. -/
theorem c7_counterexample :
    (load (mkContainer (some fileEmptySlots))).1 = Status.Success ∧
    ((load (mkContainer (some fileEmptySlots))).2.exefs_header >>> (8 * (16 * 0))) %
      (1 <<< 64) = 0 ∧
    findSection (load (mkContainer (some fileEmptySlots))).2.exefs_header [] =
      some 0 ∧
    (loadSectionExeFS (mkContainer (some fileEmptySlots)) []).map (fun r => r.1) =
      some Status.Success := by
  decide

/-- Claim C7 (amended): for every non-empty requested name, a slot whose
8-byte name field is all zero is never matched and never selected by the
scan; only the empty requested name can select an empty slot. -/
theorem c7_empty_slot_lookup (hdr i : Nat) (name : List Nat) (hname : name ≠ [])
    (hzero : (hdr >>> (8 * (16 * i))) % (1 <<< 64) = 0) :
    matchesSlot hdr i name = false ∧ findSection hdr name ≠ some i := by
  have h256 : (256 : Nat) ∣ (1 <<< 64) := ⟨72057594037927936, by decide⟩
  have hb : byteAt hdr (16 * i) = 0 := by
    unfold byteAt
    calc (hdr >>> (8 * (16 * i))) % 256
        = ((hdr >>> (8 * (16 * i))) % (1 <<< 64)) % 256 :=
          (Nat.mod_mod_of_dvd _ h256).symm
      _ = 0 := by rw [hzero]
  have hcstr : cstrAt hdr 512 (16 * i) = [] := by
    unfold cstrAt
    cases hgt : 512 - 16 * i with
    | zero => rw [cstrFrom]
    | succ n => rw [cstrFrom, if_pos hb]
  have hm : matchesSlot hdr i name = false := by
    unfold matchesSlot
    rw [hcstr]
    cases name with
    | nil => exact absurd rfl hname
    | cons a l => rfl
  refine ⟨hm, fun hf => ?_⟩
  have hmt := (findFrom_some hdr name 8 0 i hf).2.2.1
  rw [hm] at hmt
  exact Bool.false_ne_true hmt

/-- Claim C7 (witness): the amended statement at the all-zero directory. -/
theorem c7_witness : matchesSlot 0 0 [97] = false ∧ findSection 0 [97] ≠ some 0 :=
  c7_empty_slot_lookup 0 0 [97] (by decide) (by decide)

/-- Claim C8 (confirmed): the scan inspects the 8 slots in index order and
returns the first whose NUL-terminated name equals the requested name (so a
lower-indexed duplicate wins); when it returns `none`, no slot matches; and
`LoadSectionExeFS` then returns `ErrorNotUsed`. -/
theorem c8_first_match_scan :
    (∀ hdr name i, findSection hdr name = some i →
      i < 8 ∧ matchesSlot hdr i name = true ∧
        ∀ j, j < i → matchesSlot hdr j name = false) ∧
    (∀ hdr name j, findSection hdr name = none → j < 8 →
      matchesSlot hdr j name = false) ∧
    (∀ c name f, c.file ≠ none → (load c).1 = Status.Success →
      (load c).2.file = some f →
      findSection (load c).2.exefs_header name = none →
      loadSectionExeFS c name = some (Status.ErrorNotUsed, ⟨0, 0⟩, (load c).2)) := by
  refine ⟨?_, ?_, ?_⟩
  · intro hdr name i h
    obtain ⟨h1, h2, h3, h4⟩ := findFrom_some hdr name 8 0 i h
    exact ⟨by omega, h3, fun j hj => h4 j (Nat.zero_le j) hj⟩
  · intro hdr name j h hj
    exact findFrom_none hdr name 8 0 h j (Nat.zero_le j) (by omega)
  · intro c name f h0 h1 h2 h3
    unfold loadSectionExeFS
    rw [if_neg h0]
    have hlc : load c = (Status.Success, (load c).2) := Prod.ext_iff.mpr ⟨h1, rfl⟩
    rw [hlc]
    show loadSectionAfter (load c).2 name = _
    unfold loadSectionAfter
    rw [h2]
    dsimp only
    rw [h3]

/-- Claim C8 (witness): on the directory with duplicate `"a"` names at slots
1 and 2 the scan picks slot 1 and rejects slot 0; on the all-empty directory
of `fileEmptySlots` a lookup of `"z"` yields `ErrorNotUsed`. -/
theorem c8_witness :
    matchesSlot hdrDup 1 [97] = true ∧ matchesSlot hdrDup 0 [97] = false ∧
    loadSectionExeFS (mkContainer (some fileEmptySlots)) [122] =
      some (Status.ErrorNotUsed, ⟨0, 0⟩,
        (load (mkContainer (some fileEmptySlots))).2) :=
  ⟨(c8_first_match_scan.1 hdrDup [97] 1 (by decide)).2.1,
   (c8_first_match_scan.1 hdrDup [97] 1 (by decide)).2.2 0 (by decide),
   c8_first_match_scan.2.2 (mkContainer (some fileEmptySlots)) [122] fileEmptySlots
     (by decide) (by decide) (by decide) (by decide)⟩

/-- Claim C9 (counterexample): on `fileRomfsWrap` the u32 product
`romfs_offset_blocks * 0x200` wraps, so `ReadRomFS` succeeds with the
wrapped offset 0x2000 although the unwrapped byte offset
`ncch_offset + romfs_offset_blocks * 0x200 + 0x1000` already exceeds the
file size — contradicting the claim's unbounded arithmetic reading. -/
theorem c9_counterexample :
    readRomFS (load (mkContainer (some fileRomfsWrap))).2 =
      (Status.Success, some (8192, 512)) ∧
    fileRomfsWrap.size <
      (load (mkContainer (some fileRomfsWrap))).2.ncch_offset +
        le32At (load (mkContainer (some fileRomfsWrap))).2.ncch_header 432 * 512 +
        4096 := by
  decide

/-- Claim C9 (amended): with all arithmetic taken modulo 2^32 as the source
computes it (u32 offset, size and their sum), `ReadRomFS` on an open file
returns `ErrorNotUsed` iff a RomFS header field is zero, `Success` with the
u32 pair when the u32 sum fits the file, and `Error` (no partial result)
otherwise. -/
theorem c9_romfs_mod32 :
    (∀ c, c.file ≠ none →
      (le32At c.ncch_header 432 = 0 ∨ le32At c.ncch_header 436 = 0) →
      readRomFS c = (Status.ErrorNotUsed, none)) ∧
    (∀ c f, c.file = some f → le32At c.ncch_header 432 ≠ 0 →
      le32At c.ncch_header 436 ≠ 0 →
      (romfsOff c + romfsSz c) % 4294967296 ≤ f.size →
      readRomFS c = (Status.Success, some (romfsOff c, romfsSz c))) ∧
    (∀ c f, c.file = some f → le32At c.ncch_header 432 ≠ 0 →
      le32At c.ncch_header 436 ≠ 0 →
      f.size < (romfsOff c + romfsSz c) % 4294967296 →
      readRomFS c = (Status.Error, none)) := by
  refine ⟨?_, ?_, ?_⟩
  · intro c h0 h1
    unfold readRomFS
    cases hf : c.file with
    | none => exact absurd hf h0
    | some f =>
      dsimp only
      rw [if_neg (fun hcon => h1.elim (fun h => hcon.1 h) (fun h => hcon.2 h))]
  · intro c f hf h1 h2 hle
    unfold readRomFS
    rw [hf]
    dsimp only
    rw [if_pos ⟨h1, h2⟩, if_neg (by omega)]
  · intro c f hf h1 h2 hlt
    unfold readRomFS
    rw [hf]
    dsimp only
    rw [if_pos ⟨h1, h2⟩, if_pos hlt]

/-- Claim C9 (witness): the three branches at concrete containers — the
zero header, the loaded `fileRomfs` container (range fits exactly), and a
loaded-state container whose file is empty (range does not fit). -/
theorem c9_witness :
    readRomFS (mkContainer (some ⟨0, 0⟩)) = (Status.ErrorNotUsed, none) ∧
    readRomFS (load (mkContainer (some fileRomfs))).2 =
      (Status.Success, some (romfsOff (load (mkContainer (some fileRomfs))).2,
        romfsSz (load (mkContainer (some fileRomfs))).2)) ∧
    readRomFS
      { file := some ⟨0, 0⟩, pos := 0, is_loaded := true, ncch_offset := 0,
        ncch_header := 1 <<< 3456 + 9 <<< 3488, exheader_header := 0,
        exefs_header := 0, is_compressed := false, exefs_offset := 0 } =
      (Status.Error, none) :=
  ⟨c9_romfs_mod32.1 (mkContainer (some ⟨0, 0⟩)) (by decide) (Or.inl (by decide)),
   c9_romfs_mod32.2.1 (load (mkContainer (some fileRomfs))).2 fileRomfs
     (by decide) (by decide) (by decide) (by decide),
   c9_romfs_mod32.2.2
     { file := some ⟨0, 0⟩, pos := 0, is_loaded := true, ncch_offset := 0,
       ncch_header := 1 <<< 3456 + 9 <<< 3488, exheader_header := 0,
       exefs_header := 0, is_compressed := false, exefs_offset := 0 } ⟨0, 0⟩
     (by decide) (by decide) (by decide) (by decide)⟩

/-- Claim C10 (confirmed): `LZSS_Decompress` terminates on every input — the
fuel of the embedding, set to the initial input index, is never exhausted,
because the index strictly decreases on each outer iteration (the
control-byte read decrements it and the inner loop never increases it) and
all index subtractions are guarded (`index >= 2` before `index -= 2`,
`index > 0` before a literal decrement). -/
theorem c10_decoder_terminates (compressed cs D : Nat) :
    lzssDecompress compressed cs D ≠ LzRes.nofuel := by
  unfold lzssDecompress
  split
  · decide
  · dsimp only
    split
    · decide
    · exact lzssOuter_no_nofuel compressed cs D _ _ _ _ _ (le_refl _)

/-- Claim C10 (witness): termination at the 8-byte footer of
`fileCompressed`'s section with its declared output size. -/
theorem c10_witness : lzssDecompress 0x8803000006 8 144 ≠ LzRes.nofuel :=
  c10_decoder_terminates 0x8803000006 8 144

end NcchSpec
